import Mathlib

/-!
# launcher: bring-up and bring-down of a system of executables

A shallow embedding of `src/main.cpp`.

* `int` values (ports) are `Int`.  Signed overflow is undefined behaviour in
  C++, so the embedding describes the runs in which `udp_base_port + N` stays
  inside the `int` range.
* `uint16_t` values are `Nat`; the conversion from `int` is `to_uint16`
  (reduction modulo `2^16`).
* Everything the program does to the outside world is recorded as a list of
  `Event`s, in program order.
* What the outside world answers (does `execv` succeed, what does the
  receiving socket see) is an input, collected in `World`.
-/

namespace Launcher

/-! ## Message types -/

/-- The `CMD_PING` enumerator. -/
def CMD_PING : Nat := 1

/-- The `RSP_PING` enumerator. -/
def RSP_PING : Nat := 2

/-- The `CMD_DOWN` enumerator. -/
def CMD_DOWN : Nat := 3

/-- The conversion of an `int` to `uint16_t`. -/
def to_uint16 (value : Int) : Nat := (value % 65536).toNat

/-- The struct `cmd_ping_t {uint16_t cmd; uint16_t port;}`. -/
structure cmd_ping_t where
  cmd : Nat
  port : Nat
  deriving DecidableEq, Repr

/-- The struct `rsp_ping_t {uint16_t cmd; uint16_t port;}`. -/
structure rsp_ping_t where
  cmd : Nat
  port : Nat
  deriving DecidableEq, Repr

/-! ## Effects -/

/-- One observable action of the launcher. -/
inductive Event where
  /-- A `printf` call, with the text it writes. -/
  | printf (text : String)
  /-- The call `create_server(port, "", AF_INET)`: a receiver bound to `port`. -/
  | create_server (port : Nat)
  /-- The call `create_sender(port, "localhost", AF_INET)`. -/
  | create_sender (port : Int)
  /-- One datagram sent to `port`; the payload is its `uint16_t` words. -/
  | send (port : Int) (payload : List Nat)
  /-- The call `udp.close()` on the sender for `port`. -/
  | close (port : Int)
  /-- The call `usleep(usec)`. -/
  | usleep (usec : Nat)
  /-- The call `sleep(sec)`. -/
  | sleep (sec : Nat)
  /-- The call `execv(param[0], param)` in the forked child; `argv` is the
  content of `param` up to its NULL terminator. -/
  | execv (argv : List String)
  deriving DecidableEq, Repr

/-- How a run of a function of the launcher ends. -/
inductive Status where
  /-- The function returned to its caller. -/
  | returned
  /-- The process ended through `exit(code)`. -/
  | exited (code : Int)
  /-- The run is still inside the loop of `wait_for_executable` after every
  receiver outcome it was given: the Ping of the current pass is sent and
  `wait_for_data` has not yet answered. -/
  | waiting
  deriving DecidableEq, Repr

/-- The events of a run and how it ended. -/
structure Run where
  trace : List Event
  status : Status
  deriving DecidableEq, Repr

/-! ## i_to_s -/

/-- The function `i_to_s`: `sprintf(buffer, "%i", value)`. -/
def i_to_s (value : Int) : String := toString value

/-! ## spawn -/

/-- One element of the array `const char* param[20]`. -/
inductive Slot where
  /-- Never written. -/
  | uninit
  /-- The result of `args[i].c_str()`. -/
  | str (s : String)
  /-- The value `NULL`. -/
  | null
  deriving DecidableEq, Repr

/-- The value of `sizeof(param) / sizeof(param[0])`. -/
def PARAM_SLOTS : Nat := 20

/-- The final value of `count` in `spawn`. -/
def spawn_count (args : List String) : Nat :=
  let count := PARAM_SLOTS - 1
  if args.length < count then args.length else count

/-- The writes into `param`, in program order, as (index, value) pairs: the
loop `for (i=0; i<count; ++i) param[i] = args[i].c_str()` and then
`param[count] = NULL`. -/
def spawn_writes (args : List String) : List (Nat × Slot) :=
  (List.range (spawn_count args)).map (fun i => (i, Slot.str (args.getD i "")))
    ++ [(spawn_count args, Slot.null)]

/-- The array `param` when `execv` is called. -/
def spawn_param (args : List String) : List Slot :=
  (spawn_writes args).foldl (fun param w => param.set w.1 w.2)
    (List.replicate PARAM_SLOTS Slot.uninit)

/-- The argument vector a NULL-terminated array denotes: the strings in front
of the first element that is not a string. -/
def c_argv : List Slot → List String
  | Slot.str s :: rest => s :: c_argv rest
  | _ => []

/-- The function `spawn`.  `exec_ok` says whether `execv` succeeds in the
child, which is what the parent learns from the pipe
(`read(fd[0], buffer, 1) == 0`) and returns. -/
def spawn (args : List String) (exec_ok : Bool) : List Event × Bool :=
  ([Event.execv (c_argv (spawn_param args))], exec_ok)

/-! ## wait_for_executable -/

/-- What one pass through `server.wait_for_data(100)` yields: nothing within
100 ms, or a datagram that `server.receive` stores in `ping_rsp`. -/
inductive Outcome where
  | timeout
  | datagram (ping_rsp : rsp_ping_t)
  deriving DecidableEq, Repr

/-- The result of running `wait_for_executable` against a finite sequence of
receiver outcomes. -/
structure WaitResult where
  /-- The events, in order. -/
  trace : List Event
  /-- The number of receiver outcomes used up. -/
  consumed : Nat
  /-- Did the function return (`break` was reached)? -/
  returned : Bool
  deriving DecidableEq, Repr

/-- The `while (true)` loop of `wait_for_executable`, run against the receiver
outcomes `outs`, one per iteration.  Each pass first sends the Ping and then
asks the receiver, so when the outcomes are used up the loop has sent the Ping
of the pass it is in and sits in `wait_for_data`. -/
def wait_loop (port : Int) (ping_cmd : cmd_ping_t) : List Outcome → WaitResult
  | [] => ⟨[Event.send port [ping_cmd.cmd, ping_cmd.port]], 0, false⟩
  | Outcome.timeout :: rest =>
    let r := wait_loop port ping_cmd rest
    ⟨Event.send port [ping_cmd.cmd, ping_cmd.port] :: r.trace, r.consumed + 1, r.returned⟩
  | Outcome.datagram ping_rsp :: rest =>
    if (ping_rsp.port : Int) = port then
      ⟨[Event.send port [ping_cmd.cmd, ping_cmd.port]], 1, true⟩
    else
      let r := wait_loop port ping_cmd rest
      ⟨Event.send port [ping_cmd.cmd, ping_cmd.port] :: r.trace, r.consumed + 1, r.returned⟩

/-- The message `ping_cmd = {CMD_PING, reply_port}` with
`uint16_t reply_port = udp_base_port`. -/
def ping_cmd (udp_base_port : Int) : cmd_ping_t :=
  ⟨CMD_PING, to_uint16 udp_base_port⟩

/-- The function `wait_for_executable`. -/
def wait_for_executable (udp_base_port : Int) (port : Int) (outs : List Outcome) :
    WaitResult :=
  let reply_port := to_uint16 udp_base_port
  let r := wait_loop port (ping_cmd udp_base_port) outs
  ⟨Event.create_server reply_port :: Event.create_sender port :: r.trace,
    r.consumed, r.returned⟩

/-! ## The configuration -/

/-- Modelled from the spec: the class `CConfigScript` of `config_file.h`, which
is not part of the sources.  A script is an ordered sequence of records, each
a program path followed by zero or more argument tokens; `rewind` goes back to
the first record, `get_next_line` moves to the next record (and reports its
token count), `get_next_token` yields the tokens of the current record in
order. -/
abbrev CConfigScript := List (List String)

/-- What `fetch_config` leaves behind. -/
inductive Config where
  /-- The call `config.read("launcher.conf")` failed. -/
  | unreadable
  /-- One of the `config.get` calls threw; `what` is `ex.what()`. -/
  | malformed (what : String)
  /-- Both globals were set. -/
  | ok (udp_base_port : Int) (cs : CConfigScript)
  deriving DecidableEq, Repr

/-! ## kill and bring_down_system -/

/-- The function `kill`. -/
def kill (port : Int) : List Event :=
  [Event.create_sender port, Event.send port [CMD_DOWN], Event.close port]

/-- The struct `exe_t {string name; int port;}`. -/
structure exe_t where
  name : String
  port : Int
  deriving DecidableEq, Repr

/-- The first loop of `bring_down_system`: the vector `v`, built with
`exe.name = cs.get_next_token(); exe.port = ++port`. -/
def build_exe_list : CConfigScript → Int → List exe_t
  | [], _ => []
  | line :: rest, port => ⟨line.headD "", port + 1⟩ :: build_exe_list rest (port + 1)

/-- The body of the second loop of `bring_down_system`. -/
def kill_one (immediate : Bool) (it : exe_t) : List Event :=
  (if !immediate then [Event.printf ("Killing " ++ it.name ++ "\n")] else [])
    ++ kill it.port
    ++ (if !immediate then [Event.usleep 500000] else [])

/-- The second loop of `bring_down_system`, over the elements in the order
in which the reverse iterator visits them. -/
def kill_all (immediate : Bool) : List exe_t → List Event
  | [] => []
  | it :: rest => kill_one immediate it ++ kill_all immediate rest

/-- The function `bring_down_system`. -/
def bring_down_system (udp_base_port : Int) (cs : CConfigScript) (immediate : Bool) :
    List Event :=
  kill_all immediate (build_exe_list cs udp_base_port).reverse

/-! ## bring_up_system and main -/

/-- The answers of the outside world during a bring-up. -/
structure World where
  /-- The value `spawn_ok i` is what the call of `spawn` for the record at
  position `i` (counted from 0) returns. -/
  spawn_ok : Nat → Bool
  /-- The list `outcomes i` is what the receiver sees, pass after pass, during
  the call of `wait_for_executable` for the record at position `i`. -/
  outcomes : Nat → List Outcome

/-- The argument vector `args` that `bring_up_system` builds for a record when
`port` already has its incremented value. -/
def build_args (line : List String) (port : Int) : List String :=
  line ++ ["-mport", i_to_s port]

/-- The `while (cs.get_next_line(&token_count))` loop of `bring_up_system` over
the records that are left; `port` is the value of the variable on entry and
`i` the position of the first record left.  `cs` is the whole script, which
`bring_down_system` rewinds and reads. -/
def bring_up_loop (udp_base_port : Int) (cs : CConfigScript) (w : World) :
    List (List String) → Int → Nat → Run
  | [], _, _ => ⟨[], Status.returned⟩
  | line :: rest, port, i =>
    let args := build_args line (port + 1)
    let launching := Event.printf ("Launching " ++ args.getD 0 "" ++ "\n")
    let s := spawn args (w.spawn_ok i)
    if s.2 = false then
      ⟨launching :: s.1 ++ [Event.printf (args.getD 0 "" ++ " doesn't exist!\n")]
          ++ bring_down_system udp_base_port cs false,
        Status.exited 1⟩
    else
      let r := wait_for_executable udp_base_port (port + 1) (w.outcomes i)
      if r.returned = false then
        ⟨launching :: s.1 ++ r.trace, Status.waiting⟩
      else
        let next := bring_up_loop udp_base_port cs w rest (port + 1) (i + 1)
        ⟨launching :: s.1 ++ r.trace ++ next.trace, next.status⟩

/-- The function `bring_up_system`. -/
def bring_up_system (udp_base_port : Int) (cs : CConfigScript) (w : World) : Run :=
  bring_up_loop udp_base_port cs w cs udp_base_port 0

/-- The function `main`.  `argv` is the argument vector of the launcher itself
(`argv[0]` is its own name) and `config` is what `fetch_config` finds. -/
def main (argv : List String) (config : Config) (w : World) : Run :=
  match config with
  | Config.unreadable => ⟨[], Status.exited 1⟩
  | Config.malformed what => ⟨[Event.printf (what ++ "\n")], Status.exited 1⟩
  | Config.ok udp_base_port cs =>
    let down := bring_down_system udp_base_port cs true
    if argv[1]? = some "down" then
      ⟨down, Status.exited 0⟩
    else
      let up := bring_up_system udp_base_port cs w
      ⟨down ++ Event.sleep 1 :: up.trace,
        match up.status with
        | Status.returned => Status.exited 0
        | st => st⟩

/-! ## Reading a trace -/

/-- The destination of an event that sends a Shutdown message. -/
def down_target : Event → Option Int
  | Event.send port payload => if payload = [CMD_DOWN] then some port else none
  | _ => none

/-- The ports that receive a Shutdown message, in the order of sending. -/
def down_targets (trace : List Event) : List Int := trace.filterMap down_target

/-- Is the event the sending of a Ping message? -/
def is_ping : Event → Bool
  | Event.send _ payload => payload.head? = some CMD_PING
  | _ => false

/-- Is the event the creation of a process image? -/
def is_execv : Event → Bool
  | Event.execv _ => true
  | _ => false

/-- Is the event a progress line? -/
def is_printf : Event → Bool
  | Event.printf _ => true
  | _ => false

/-- Is the event a delay? -/
def is_delay : Event → Bool
  | Event.usleep _ => true
  | Event.sleep _ => true
  | _ => false

/-- The port a sender is created for. -/
def sender_port : Event → Option Int
  | Event.create_sender port => some port
  | _ => none

/-- The argument vector of an event that creates a process image. -/
def execv_argv : Event → Option (List String)
  | Event.execv argv => some argv
  | _ => none

/-- The ports `base+1, ..., base+n`, in this order. -/
def port_range (udp_base_port : Int) (n : Nat) : List Int :=
  (List.range n).map (fun (i : Nat) => udp_base_port + (i : Int) + 1)

/-- The two-record script of the scenarios. -/
def demo_script : CConfigScript := [["echoer"], ["logger", "-v"]]

/-- A world in which every image loads and every unit answers the first Ping. -/
def demo_world : World :=
  ⟨fun _ => true, fun i => [Outcome.datagram ⟨RSP_PING, 9001 + i⟩]⟩

/-- Is the outcome a datagram whose port field is `port`? -/
def is_reply_for (port : Int) : Outcome → Bool
  | Outcome.timeout => false
  | Outcome.datagram ping_rsp => decide ((ping_rsp.port : Int) = port)

/-- The record at position `i` loads and answers: `spawn` returns true and
`wait_for_executable` returns. -/
def unit_ok (udp_base_port : Int) (w : World) (i : Nat) : Prop :=
  w.spawn_ok i = true ∧
    (wait_for_executable udp_base_port (udp_base_port + (i : Int) + 1) (w.outcomes i)).returned
      = true

/-- The events of the record at position `i` from the creation of its process
image to the end of its readiness wait. -/
def spawn_then_wait (udp_base_port : Int) (w : World) (i : Nat) (line : List String) :
    List Event :=
  Event.execv (c_argv (spawn_param (build_args line (udp_base_port + (i : Int) + 1))))
    :: (wait_for_executable udp_base_port (udp_base_port + (i : Int) + 1) (w.outcomes i)).trace

/-- The events of one pass through the body of the loop of `bring_up_system`
for the record `line` at position `i`, when it loads and answers. -/
def launch_events (udp_base_port : Int) (w : World) (i : Nat) (line : List String) :
    List Event :=
  Event.printf ("Launching " ++ (build_args line (udp_base_port + (i : Int) + 1)).getD 0 "" ++ "\n")
    :: spawn_then_wait udp_base_port w i line

/-- The events `launch_events` of consecutive records, the first at position `i`. -/
def launch_all (udp_base_port : Int) (w : World) : List (List String) → Nat → List Event
  | [], _ => []
  | line :: rest, i => launch_events udp_base_port w i line ++ launch_all udp_base_port w rest (i + 1)

/-- The events `spawn_then_wait` of consecutive records, the first at position `i`. -/
def spawn_wait_all (udp_base_port : Int) (w : World) : List (List String) → Nat → List Event
  | [], _ => []
  | line :: rest, i =>
    spawn_then_wait udp_base_port w i line ++ spawn_wait_all udp_base_port w rest (i + 1)

/-- The events of the pass through the body of the loop of `bring_up_system` in
which `spawn` fails for the record `line` at position `i`, up to the call of
`bring_down_system`. -/
def failed_launch (udp_base_port : Int) (i : Nat) (line : List String) : List Event :=
  [Event.printf ("Launching " ++ (build_args line (udp_base_port + (i : Int) + 1)).getD 0 "" ++ "\n"),
   Event.execv (c_argv (spawn_param (build_args line (udp_base_port + (i : Int) + 1)))),
   Event.printf ((build_args line (udp_base_port + (i : Int) + 1)).getD 0 "" ++ " doesn't exist!\n")]

/-- The world of `demo_world` in which the image of the second record does
not load. -/
def logger_absent_world : World :=
  ⟨fun i => decide (i = 0), fun i => [Outcome.datagram ⟨RSP_PING, 9001 + i⟩]⟩

/-- A record of 18 tokens: a program path and 17 arguments. -/
def long_record : List String := "prog" :: List.replicate 17 "x"

/-! ## spawn: the argument array -/

theorem fill_param (args : List String) (c : Nat) (hc : c ≤ args.length) (h20 : c ≤ 20) :
    (List.range c).foldl (fun param i => param.set i (Slot.str (args.getD i "")))
        (List.replicate 20 Slot.uninit)
      = (args.take c).map Slot.str ++ List.replicate (20 - c) Slot.uninit := by
  induction c with
  | zero => simp
  | succ c ih =>
    have hlt : c < args.length := hc
    rw [List.range_succ, List.foldl_append, ih (by omega) (by omega)]
    have hlen : ((args.take c).map Slot.str).length = c := by
      simp [List.length_take]; omega
    have hrep : List.replicate (20 - c) Slot.uninit
        = Slot.uninit :: List.replicate (20 - (c + 1)) Slot.uninit := by
      rw [← List.replicate_succ]; congr 1; omega
    simp only [List.foldl_cons, List.foldl_nil]
    rw [List.set_append_right _ _ (by omega), hlen, Nat.sub_self, hrep, List.set_cons_zero]
    rw [List.take_succ, List.getD_eq_getElem?_getD, List.getElem?_eq_getElem hlt]
    simp only [Option.getD_some, Option.toList, List.map_append, List.map_cons, List.map_nil,
      List.append_assoc, List.singleton_append]

theorem spawn_count_eq (args : List String) : spawn_count args = min args.length 19 := by
  unfold spawn_count PARAM_SLOTS
  simp only
  split <;> omega

theorem spawn_param_eq (args : List String) :
    spawn_param args
      = (args.take (min args.length 19)).map Slot.str
          ++ Slot.null :: List.replicate (19 - min args.length 19) Slot.uninit := by
  unfold spawn_param spawn_writes
  rw [List.foldl_append, List.foldl_map, spawn_count_eq]
  simp only [PARAM_SLOTS, List.foldl_cons, List.foldl_nil]
  rw [fill_param args _ (by omega) (by omega)]
  have hlen : ((args.take (min args.length 19)).map Slot.str).length = min args.length 19 := by
    simp [List.length_take]
  have hrep : List.replicate (20 - min args.length 19) Slot.uninit
      = Slot.uninit :: List.replicate (19 - min args.length 19) Slot.uninit := by
    rw [← List.replicate_succ]; congr 1; omega
  rw [List.set_append_right _ _ (by omega), hlen, Nat.sub_self, hrep, List.set_cons_zero]

theorem c_argv_strs (l : List String) (rest : List Slot) :
    c_argv (l.map Slot.str ++ Slot.null :: rest) = l := by
  induction l with
  | nil => simp [c_argv]
  | cons a l ih => simp [c_argv, ih]

theorem c_argv_spawn_param (args : List String) : c_argv (spawn_param args) = args.take 19 := by
  rw [spawn_param_eq, c_argv_strs]
  rcases Nat.le_total args.length 19 with h | h
  · rw [Nat.min_eq_left h, List.take_of_length_le (le_refl _), List.take_of_length_le h]
  · rw [Nat.min_eq_right h]

/-- C7: for every argument vector, `spawn` fills `param` with the first
`min(n, 19)` arguments in their order followed by one NULL (the slots behind it
stay unwritten), so the new image gets the first 19 arguments at most; every
write, the terminator included, is at an index below 20; and the result of
`spawn` is what the pipe reports, whatever the length of the vector. -/
theorem spawn_truncates_to_19 (args : List String) (exec_ok : Bool) :
    spawn_param args
        = (args.take (min args.length 19)).map Slot.str
            ++ Slot.null :: List.replicate (19 - min args.length 19) Slot.uninit
      ∧ (spawn_param args).length = 20
      ∧ (∀ wr ∈ spawn_writes args, wr.1 < 20)
      ∧ spawn args exec_ok = ([Event.execv (args.take 19)], exec_ok) := by
  refine ⟨spawn_param_eq args, ?_, ?_, ?_⟩
  · rw [spawn_param_eq]
    simp [List.length_take]
    omega
  · intro wr hwr
    unfold spawn_writes at hwr
    rw [spawn_count_eq] at hwr
    simp only [List.mem_append, List.mem_map, List.mem_range, List.mem_singleton] at hwr
    rcases hwr with ⟨i, hi, rfl⟩ | rfl
    · simp only; omega
    · simp only; omega
  · simp [spawn, c_argv_spawn_param]

/-! ## bring_down_system -/

theorem port_range_succ (p : Int) (n : Nat) :
    port_range p (n + 1) = (p + 1) :: port_range (p + 1) n := by
  unfold port_range
  rw [List.range_succ_eq_map]
  simp only [List.map_cons, List.map_map]
  refine congrArg₂ _ (by simp) ?_
  apply List.map_congr_left
  intro i _
  simp only [Function.comp, Nat.succ_eq_add_one]
  push_cast
  ring

theorem build_exe_list_ports (cs : CConfigScript) (p : Int) :
    (build_exe_list cs p).map exe_t.port = port_range p cs.length := by
  induction cs generalizing p with
  | nil => simp [build_exe_list, port_range]
  | cons line rest ih =>
    simp only [build_exe_list, List.map_cons, List.length_cons, port_range_succ, ih]

theorem port_range_length (p : Int) (n : Nat) : (port_range p n).length = n := by
  simp [port_range]

theorem port_range_get (p : Int) (n i : Nat) (h : i < n) :
    (port_range p n)[i]? = some (p + (i : Int) + 1) := by
  simp [port_range, List.getElem?_range h]

theorem port_range_increasing (p : Int) (n : Nat) :
    List.Pairwise (fun a b => a < b) (port_range p n) := by
  induction n generalizing p with
  | zero => simp [port_range]
  | succ n ih =>
    rw [port_range_succ, List.pairwise_cons]
    refine ⟨?_, ih (p + 1)⟩
    intro a ha
    unfold port_range at ha
    simp only [List.mem_map, List.mem_range] at ha
    obtain ⟨i, _, rfl⟩ := ha
    omega

theorem port_range_nodup (p : Int) (n : Nat) : (port_range p n).Nodup :=
  (port_range_increasing p n).imp (fun h => ne_of_lt h)

theorem down_targets_append (a b : List Event) :
    down_targets (a ++ b) = down_targets a ++ down_targets b := by
  simp [down_targets]

theorem down_targets_kill_one (immediate : Bool) (it : exe_t) :
    down_targets (kill_one immediate it) = [it.port] := by
  cases immediate <;> simp [kill_one, kill, down_targets, down_target]

theorem down_targets_kill_all (immediate : Bool) (l : List exe_t) :
    down_targets (kill_all immediate l) = l.map exe_t.port := by
  induction l with
  | nil => simp [kill_all, down_targets]
  | cons it rest ih =>
    simp [kill_all, down_targets_append, down_targets_kill_one, ih]

theorem down_targets_bring_down (udp_base_port : Int) (cs : CConfigScript) (immediate : Bool) :
    down_targets (bring_down_system udp_base_port cs immediate)
      = (port_range udp_base_port cs.length).reverse := by
  unfold bring_down_system
  rw [down_targets_kill_all, List.map_reverse, build_exe_list_ports]

theorem kill_all_immediate (l : List exe_t) :
    kill_all true l = (l.map exe_t.port).flatMap kill := by
  induction l with
  | nil => simp [kill_all]
  | cons it rest ih => simp [kill_all, kill_one, ih]

theorem kill_all_graceful (l : List exe_t) :
    kill_all false l
      = l.flatMap (fun it =>
          Event.printf ("Killing " ++ it.name ++ "\n") :: (kill it.port ++ [Event.usleep 500000])) := by
  induction l with
  | nil => simp [kill_all]
  | cons it rest ih => simp [kill_all, kill_one, ih]

theorem kill_all_filter (l : List exe_t) :
    (kill_all false l).filter (fun e => !is_printf e && !is_delay e) = kill_all true l := by
  induction l with
  | nil => simp [kill_all]
  | cons it rest ih =>
    simp only [kill_all, List.filter_append, ih]
    simp [kill_one, kill, is_printf, is_delay]

theorem kill_all_immediate_quiet (l : List exe_t) :
    ∀ e ∈ kill_all true l,
      is_printf e = false ∧ is_delay e = false ∧ is_ping e = false ∧ is_execv e = false := by
  induction l with
  | nil => simp [kill_all]
  | cons it rest ih =>
    intro e he
    simp only [kill_all, List.mem_append] at he
    rcases he with he | he
    · simp only [kill_one, kill, Bool.not_true, Bool.false_eq_true, if_false, List.nil_append,
        List.append_nil, List.mem_cons, List.mem_singleton, List.not_mem_nil, or_false] at he
      rcases he with rfl | rfl | rfl <;> simp [is_printf, is_delay, is_ping, is_execv, CMD_DOWN, CMD_PING]
    · exact ih e he

/-- C8: the graceful and the immediate bring-down send their Shutdown messages
to the same ports in the same order; the immediate trace holds no progress
line and no delay and is the graceful trace with every progress line and every
delay removed; the immediate trace is, unit after unit in reverse order, the
three events of `kill`, and the graceful trace wraps each of these groups
between the line "Killing <name>" of that unit and a delay of 500000
microseconds. -/
theorem bring_down_graceful_vs_immediate (udp_base_port : Int) (cs : CConfigScript) :
    down_targets (bring_down_system udp_base_port cs false)
        = down_targets (bring_down_system udp_base_port cs true)
      ∧ (∀ e ∈ bring_down_system udp_base_port cs true, is_printf e = false ∧ is_delay e = false)
      ∧ (bring_down_system udp_base_port cs false).filter (fun e => !is_printf e && !is_delay e)
          = bring_down_system udp_base_port cs true
      ∧ bring_down_system udp_base_port cs true
          = (build_exe_list cs udp_base_port).reverse.flatMap (fun it => kill it.port)
      ∧ bring_down_system udp_base_port cs false
          = (build_exe_list cs udp_base_port).reverse.flatMap (fun it =>
              Event.printf ("Killing " ++ it.name ++ "\n")
                :: (kill it.port ++ [Event.usleep 500000])) := by
  refine ⟨?_, ?_, kill_all_filter _, ?_, kill_all_graceful _⟩
  · rw [down_targets_bring_down, down_targets_bring_down]
  · intro e he
    have h := kill_all_immediate_quiet _ e he
    exact ⟨h.1, h.2.1⟩
  · unfold bring_down_system
    rw [kill_all_immediate, List.flatMap_map]

/-- C5: with "down" as first command-line argument, the run of `main` is the
immediate bring-down and then `exit(0)`: the trace is, for the ports
`base+N, ..., base+1` in this order, the three events of `kill`, and it holds
no Ping, no process creation, no progress line and no delay. -/
theorem down_only_run (prog : String) (more : List String) (udp_base_port : Int)
    (cs : CConfigScript) (w : World) :
    main (prog :: "down" :: more) (Config.ok udp_base_port cs) w
        = ⟨bring_down_system udp_base_port cs true, Status.exited 0⟩
      ∧ bring_down_system udp_base_port cs true
          = (port_range udp_base_port cs.length).reverse.flatMap kill
      ∧ down_targets (main (prog :: "down" :: more) (Config.ok udp_base_port cs) w).trace
          = (port_range udp_base_port cs.length).reverse
      ∧ ∀ e ∈ (main (prog :: "down" :: more) (Config.ok udp_base_port cs) w).trace,
          is_ping e = false ∧ is_execv e = false ∧ is_printf e = false ∧ is_delay e = false := by
  have hmain : main (prog :: "down" :: more) (Config.ok udp_base_port cs) w
      = ⟨bring_down_system udp_base_port cs true, Status.exited 0⟩ := by
    simp [main]
  refine ⟨hmain, ?_, ?_, ?_⟩
  · unfold bring_down_system
    rw [kill_all_immediate, List.map_reverse, build_exe_list_ports]
  · rw [hmain, down_targets_bring_down]
  · rw [hmain]
    intro e he
    have h := kill_all_immediate_quiet _ e he
    exact ⟨h.2.2.1, h.2.2.2, h.1, h.2.1⟩

/-! ## wait_for_executable -/

theorem wait_loop_trace (port : Int) (pc : cmd_ping_t) (outs : List Outcome) :
    (wait_loop port pc outs).trace
      = List.replicate
          ((wait_loop port pc outs).consumed + (if (wait_loop port pc outs).returned then 0 else 1))
          (Event.send port [pc.cmd, pc.port]) := by
  induction outs with
  | nil => simp [wait_loop]
  | cons o rest ih =>
    cases o with
    | timeout =>
      simp only [wait_loop, ih]
      rw [← List.replicate_succ]
      congr 1
      omega
    | datagram m =>
      by_cases hm : (m.port : Int) = port
      · simp [wait_loop, hm]
      · simp only [wait_loop, hm, if_false, ih]
        rw [← List.replicate_succ]
        congr 1
        omega

theorem wait_loop_no_reply (port : Int) (pc : cmd_ping_t) (pre : List Outcome)
    (hpre : ∀ o ∈ pre, is_reply_for port o = false) :
    (wait_loop port pc pre).consumed = pre.length ∧ (wait_loop port pc pre).returned = false := by
  induction pre with
  | nil => simp [wait_loop]
  | cons o rest ih =>
    have hrest := ih (fun o ho => hpre o (List.mem_cons_of_mem _ ho))
    have ho := hpre o (List.mem_cons_self _ _)
    cases o with
    | timeout => simp [wait_loop, hrest]
    | datagram m =>
      have hm : ¬ (m.port : Int) = port := by simpa [is_reply_for] using ho
      simp [wait_loop, hm, hrest]

theorem wait_loop_first_reply (port : Int) (pc : cmd_ping_t) (pre : List Outcome)
    (hpre : ∀ o ∈ pre, is_reply_for port o = false) (m : rsp_ping_t) (post : List Outcome)
    (hm : (m.port : Int) = port) :
    (wait_loop port pc (pre ++ Outcome.datagram m :: post)).consumed = pre.length + 1
      ∧ (wait_loop port pc (pre ++ Outcome.datagram m :: post)).returned = true := by
  induction pre with
  | nil => simp [wait_loop, hm]
  | cons o rest ih =>
    have hrest := ih (fun o ho => hpre o (List.mem_cons_of_mem _ ho))
    have ho := hpre o (List.mem_cons_self _ _)
    cases o with
    | timeout => simp [wait_loop, hrest]
    | datagram m0 =>
      have hm0 : ¬ (m0.port : Int) = port := by simpa [is_reply_for] using ho
      simp [wait_loop, hm0, hrest]

theorem wait_loop_returned_iff (port : Int) (pc : cmd_ping_t) (outs : List Outcome) :
    (wait_loop port pc outs).returned = true
      ↔ ∃ m, Outcome.datagram m ∈ outs ∧ (m.port : Int) = port := by
  induction outs with
  | nil => simp [wait_loop]
  | cons o rest ih =>
    cases o with
    | timeout => simp [wait_loop, ih]
    | datagram m0 =>
      by_cases hm0 : (m0.port : Int) = port
      · simp only [wait_loop, hm0, if_true, true_iff]
        exact ⟨m0, List.mem_cons_self _ _, hm0⟩
      · simp only [wait_loop, hm0, if_false, ih, List.mem_cons, Outcome.datagram.injEq]
        constructor
        · rintro ⟨m, hmem, hm⟩
          exact ⟨m, Or.inr hmem, hm⟩
        · rintro ⟨m, hmem | hmem, hm⟩
          · exact absurd (hmem ▸ hm) hm0
          · exact ⟨m, hmem, hm⟩

theorem wait_trace_eq (udp_base_port port : Int) (outs : List Outcome) :
    (wait_for_executable udp_base_port port outs).trace
      = Event.create_server (to_uint16 udp_base_port) :: Event.create_sender port
          :: List.replicate
              ((wait_for_executable udp_base_port port outs).consumed
                + (if (wait_for_executable udp_base_port port outs).returned then 0 else 1))
              (Event.send port [CMD_PING, to_uint16 udp_base_port]) := by
  simp only [wait_for_executable]
  rw [wait_loop_trace]
  rfl

theorem wait_ping_count (udp_base_port port : Int) (outs : List Outcome) :
    ((wait_for_executable udp_base_port port outs).trace.filter is_ping).length
      = (wait_for_executable udp_base_port port outs).consumed
          + (if (wait_for_executable udp_base_port port outs).returned then 0 else 1) := by
  rw [wait_trace_eq]
  simp [is_ping, CMD_PING]

/-- C10: `wait_for_executable` has no failure result.  Every pass of its loop
begins by sending one Ping.  Against outcomes none of which is a datagram with
port field `port` it has not returned, whatever their number: it has used all
of them and has sent one Ping for each and one more, that of the pass it is
in (so a Ping follows each timeout and each datagram that does not match).
When a datagram with port field `port` follows such outcomes it returns there,
whatever comes after, and the Pings sent before it returns are as many as the
outcomes used.  In general the Pings of the trace are one per outcome used,
plus one while it has not returned. -/
theorem wait_returns_at_first_reply (udp_base_port port : Int) (pre : List Outcome)
    (hpre : ∀ o ∈ pre, is_reply_for port o = false) :
    wait_for_executable udp_base_port port pre
        = ⟨Event.create_server (to_uint16 udp_base_port) :: Event.create_sender port
            :: List.replicate (pre.length + 1)
                (Event.send port [CMD_PING, to_uint16 udp_base_port]),
          pre.length, false⟩
      ∧ (∀ (m : rsp_ping_t) (post : List Outcome), (m.port : Int) = port →
          wait_for_executable udp_base_port port (pre ++ Outcome.datagram m :: post)
            = ⟨Event.create_server (to_uint16 udp_base_port) :: Event.create_sender port
                :: List.replicate (pre.length + 1)
                    (Event.send port [CMD_PING, to_uint16 udp_base_port]),
              pre.length + 1, true⟩)
      ∧ (∀ outs : List Outcome,
          ((wait_for_executable udp_base_port port outs).trace.filter is_ping).length
            = (wait_for_executable udp_base_port port outs).consumed
                + (if (wait_for_executable udp_base_port port outs).returned then 0 else 1)) := by
  refine ⟨?_, ?_, wait_ping_count udp_base_port port⟩
  · have h := wait_loop_no_reply port (ping_cmd udp_base_port) pre hpre
    have ht := wait_trace_eq udp_base_port port pre
    simp only [wait_for_executable] at ht ⊢
    rw [ht]
    simp [h.1, h.2]
  · intro m post hm
    have h := wait_loop_first_reply port (ping_cmd udp_base_port) pre hpre m post hm
    have ht := wait_trace_eq udp_base_port port (pre ++ Outcome.datagram m :: post)
    simp only [wait_for_executable] at ht ⊢
    rw [ht]
    simp [h.1, h.2]

/-- Witness of C10: two outcomes that do not answer for port 9001 (a timeout and
a reply of port 9002) leave the wait running with three Pings sent; with the
reply of port 9001 behind them the wait returns there, three Pings sent. -/
theorem wait_returns_at_first_reply_witness :
    (∀ o ∈ [Outcome.timeout, Outcome.datagram ⟨RSP_PING, 9002⟩], is_reply_for 9001 o = false)
      ∧ wait_for_executable 9000 9001 [Outcome.timeout, Outcome.datagram ⟨RSP_PING, 9002⟩]
        = ⟨[Event.create_server 9000, Event.create_sender 9001, Event.send 9001 [1, 9000],
            Event.send 9001 [1, 9000], Event.send 9001 [1, 9000]], 2, false⟩
      ∧ wait_for_executable 9000 9001
          [Outcome.timeout, Outcome.datagram ⟨RSP_PING, 9002⟩, Outcome.datagram ⟨RSP_PING, 9001⟩,
            Outcome.timeout]
        = ⟨[Event.create_server 9000, Event.create_sender 9001, Event.send 9001 [1, 9000],
            Event.send 9001 [1, 9000], Event.send 9001 [1, 9000]], 3, true⟩ :=
  ⟨by decide,
    (wait_returns_at_first_reply 9000 9001
        [Outcome.timeout, Outcome.datagram ⟨RSP_PING, 9002⟩] (by decide)).1.trans (by decide),
    ((wait_returns_at_first_reply 9000 9001
        [Outcome.timeout, Outcome.datagram ⟨RSP_PING, 9002⟩] (by decide)).2.1
      ⟨RSP_PING, 9001⟩ [Outcome.timeout] (by decide)).trans (by decide)⟩

/-- C4, the counterexample: a datagram with the type tag of a Ping and port
field 9001 ends the wait for port 9001. -/
theorem wait_accepts_other_type :
    CMD_PING ≠ RSP_PING
      ∧ (wait_for_executable 9000 (9000 + 1) [Outcome.datagram ⟨CMD_PING, 9001⟩]).returned = true := by
  decide

/-- C4, amended: the wait for unit `k` has returned exactly when one of the
outcomes is a datagram whose port field is `base+k`; a datagram with that port
field ends the wait whatever its type tag, and an outcome that is not such a
datagram is passed over: the wait goes on with the outcomes behind it. -/
theorem wait_completes_on_port_only (udp_base_port : Int) (k : Nat) (outs : List Outcome) :
    ((wait_for_executable udp_base_port (udp_base_port + k) outs).returned = true
        ↔ ∃ m, Outcome.datagram m ∈ outs ∧ (m.port : Int) = udp_base_port + k)
      ∧ (∀ (cmd p : Nat) (rest : List Outcome), (p : Int) = udp_base_port + k →
          (wait_for_executable udp_base_port (udp_base_port + k)
            (Outcome.datagram ⟨cmd, p⟩ :: rest)).returned = true)
      ∧ (∀ (o : Outcome) (rest : List Outcome), is_reply_for (udp_base_port + k) o = false →
          (wait_for_executable udp_base_port (udp_base_port + k) (o :: rest)).returned
              = (wait_for_executable udp_base_port (udp_base_port + k) rest).returned
            ∧ (wait_for_executable udp_base_port (udp_base_port + k) (o :: rest)).consumed
              = (wait_for_executable udp_base_port (udp_base_port + k) rest).consumed + 1) := by
  refine ⟨?_, ?_, ?_⟩
  · simp only [wait_for_executable]
    exact wait_loop_returned_iff _ _ _
  · intro cmd p rest hp
    simp [wait_for_executable, wait_loop, hp]
  · intro o rest ho
    cases o with
    | timeout => simp [wait_for_executable, wait_loop]
    | datagram m =>
      have hm : ¬ (m.port : Int) = udp_base_port + k := by simpa [is_reply_for] using ho
      simp [wait_for_executable, wait_loop, hm]

/-- Witness of C4, amended: for base 9000 and unit 1 a Shutdown-tagged datagram
with port field 9001 ends the wait, and a Pong of port 9002 is passed over. -/
theorem wait_completes_on_port_only_witness :
    (wait_for_executable 9000 (9000 + (1 : Nat)) [Outcome.datagram ⟨CMD_DOWN, 9001⟩]).returned = true
      ∧ (wait_for_executable 9000 (9000 + (1 : Nat))
            [Outcome.datagram ⟨RSP_PING, 9002⟩, Outcome.timeout]).returned
          = (wait_for_executable 9000 (9000 + (1 : Nat)) [Outcome.timeout]).returned :=
  ⟨(wait_completes_on_port_only 9000 1 []).2.1 CMD_DOWN 9001 [] (by decide),
    ((wait_completes_on_port_only 9000 1 []).2.2 (Outcome.datagram ⟨RSP_PING, 9002⟩)
      [Outcome.timeout] (by decide)).1⟩

/-- C9, the counterexample: with base port -1 the reply port of the Ping and
of the receiver is 65535, which is not the base port and is the port of unit
65536.  The trace is that of the wait for this unit up to its second pass. -/
theorem reply_port_wraps :
    (wait_for_executable (-1) (-1 + (65536 : Nat)) [Outcome.timeout]).trace
        = [Event.create_server 65535, Event.create_sender 65535, Event.send 65535 [1, 65535],
            Event.send 65535 [1, 65535]]
      ∧ ((ping_cmd (-1)).port : Int) ≠ -1
      ∧ ((ping_cmd (-1)).port : Int) = -1 + (65536 : Nat) := by
  decide

/-- C9, amended: for every base port and every unit position `k`, the Ping has
type tag 1 and as reply port the base port modulo `2^16`, which is the base
port itself exactly when the base port is in `0..65535`; the receiver is bound
to that port and every Ping of the wait is that message sent to `base+k`.  The
reply port equals `base+k` exactly when `base+k` is in `0..65535` and `k` is a
multiple of 65536: so for `k ≥ 1` it differs from `base+k` whenever the base
port is not negative or `k` is below 65536. -/
theorem ping_reply_port (udp_base_port : Int) (k : Nat) (outs : List Outcome) :
    ping_cmd udp_base_port = ⟨1, to_uint16 udp_base_port⟩
      ∧ (to_uint16 udp_base_port : Int) = udp_base_port % 65536
      ∧ ((to_uint16 udp_base_port : Int) = udp_base_port
          ↔ 0 ≤ udp_base_port ∧ udp_base_port < 65536)
      ∧ ((to_uint16 udp_base_port : Int) = udp_base_port + k
          ↔ 0 ≤ udp_base_port + k ∧ udp_base_port + k < 65536 ∧ k % 65536 = 0)
      ∧ (1 ≤ k → (0 ≤ udp_base_port ∨ k < 65536) →
          (to_uint16 udp_base_port : Int) ≠ udp_base_port + k)
      ∧ (wait_for_executable udp_base_port (udp_base_port + k) outs).trace
          = Event.create_server (to_uint16 udp_base_port)
              :: Event.create_sender (udp_base_port + k)
              :: List.replicate
                  ((wait_for_executable udp_base_port (udp_base_port + k) outs).consumed
                    + (if (wait_for_executable udp_base_port (udp_base_port + k) outs).returned
                        then 0 else 1))
                  (Event.send (udp_base_port + k) [1, to_uint16 udp_base_port]) := by
  have hmod : (to_uint16 udp_base_port : Int) = udp_base_port % 65536 := by
    unfold to_uint16
    exact Int.toNat_of_nonneg (Int.emod_nonneg _ (by decide))
  refine ⟨rfl, hmod, ?_, ?_, ?_, wait_trace_eq _ _ _⟩
  · rw [hmod]
    omega
  · rw [hmod]
    omega
  · intro hk hor
    rw [hmod]
    omega

/-- Witness of C9, amended: base port 9000, unit 1, one timeout: the reply
port 9000 differs from 9001, and two Pings are out. -/
theorem ping_reply_port_witness :
    (to_uint16 9000 : Int) ≠ 9000 + (1 : Nat)
      ∧ (wait_for_executable 9000 (9000 + (1 : Nat)) [Outcome.timeout]).trace
          = [Event.create_server 9000, Event.create_sender 9001, Event.send 9001 [1, 9000],
              Event.send 9001 [1, 9000]] :=
  ⟨(ping_reply_port 9000 1 [Outcome.timeout]).2.2.2.2.1 (by decide) (Or.inl (by decide)),
    ((ping_reply_port 9000 1 [Outcome.timeout]).2.2.2.2.2).trans (by decide)⟩

/-! ## bring_up_system -/

theorem bring_up_loop_split (udp_base_port : Int) (cs : CConfigScript) (w : World) (k : Nat) :
    ∀ (rest : List (List String)) (i : Nat) (p : Int), p = udp_base_port + (i : Int) →
      k ≤ rest.length → (∀ j, j < k → unit_ok udp_base_port w (i + j)) →
      bring_up_loop udp_base_port cs w rest p i
        = ⟨launch_all udp_base_port w (rest.take k) i
            ++ (bring_up_loop udp_base_port cs w (rest.drop k) (p + (k : Int)) (i + k)).trace,
          (bring_up_loop udp_base_port cs w (rest.drop k) (p + (k : Int)) (i + k)).status⟩ := by
  induction k with
  | zero =>
    intro rest i p _ _ _
    simp [launch_all]
  | succ k ih =>
    intro rest i p hp hk hok
    cases rest with
    | nil => simp at hk
    | cons line rest =>
      subst hp
      have h0 := hok 0 (by omega)
      simp only [Nat.add_zero] at h0
      obtain ⟨hs, hw⟩ := h0
      have hnext := ih rest (i + 1) (udp_base_port + (i : Int) + 1) (by push_cast; ring)
        (by simpa using hk)
        (fun j hj => by
          have h := hok (j + 1) (by omega)
          rwa [show i + (j + 1) = i + 1 + j by omega] at h)
      have e1 : udp_base_port + (i : Int) + 1 + (k : Int)
          = udp_base_port + (i : Int) + ((k + 1 : Nat) : Int) := by push_cast; ring
      have e2 : i + 1 + k = i + (k + 1) := by omega
      rw [e1, e2] at hnext
      rw [bring_up_loop]
      simp only [spawn, hs, hw, Bool.true_eq_false, if_false]
      rw [hnext]
      simp [launch_all, launch_events, spawn_then_wait]

theorem bring_up_all_ok (udp_base_port : Int) (cs : CConfigScript) (w : World)
    (hok : ∀ i, i < cs.length → unit_ok udp_base_port w i) :
    bring_up_system udp_base_port cs w = ⟨launch_all udp_base_port w cs 0, Status.returned⟩ := by
  unfold bring_up_system
  rw [bring_up_loop_split udp_base_port cs w cs.length cs 0 udp_base_port (by simp) (le_refl _)
    (fun j hj => by simpa using hok j hj)]
  simp [bring_up_loop]

theorem drop_at_record (cs : List (List String)) (k : Nat) (line : List String)
    (hline : cs[k]? = some line) : cs.drop k = line :: cs.drop (k + 1) := by
  have hk : k < cs.length := by
    rcases Nat.lt_or_ge k cs.length with h | h
    · exact h
    · rw [List.getElem?_eq_none h] at hline
      cases hline
  rw [List.getElem?_eq_getElem hk] at hline
  cases hline
  exact List.drop_eq_getElem_cons hk

theorem bring_up_reaches (udp_base_port : Int) (cs : CConfigScript) (w : World) (k : Nat)
    (line : List String) (hline : cs[k]? = some line)
    (hok : ∀ j, j < k → unit_ok udp_base_port w j) :
    bring_up_system udp_base_port cs w
      = ⟨launch_all udp_base_port w (cs.take k) 0
          ++ (bring_up_loop udp_base_port cs w (line :: cs.drop (k + 1))
                (udp_base_port + (k : Int)) k).trace,
        (bring_up_loop udp_base_port cs w (line :: cs.drop (k + 1))
                (udp_base_port + (k : Int)) k).status⟩ := by
  have hk : k ≤ cs.length := by
    rcases Nat.lt_or_ge k cs.length with h | h
    · exact Nat.le_of_lt h
    · rw [List.getElem?_eq_none h] at hline
      cases hline
  unfold bring_up_system
  rw [bring_up_loop_split udp_base_port cs w k cs 0 udp_base_port (by simp) hk
    (fun j hj => by simpa using hok j hj)]
  rw [drop_at_record cs k line hline]
  simp

theorem bring_up_spawn_fails (udp_base_port : Int) (cs : CConfigScript) (w : World) (k : Nat)
    (line : List String) (hline : cs[k]? = some line)
    (hok : ∀ j, j < k → unit_ok udp_base_port w j) (hfail : w.spawn_ok k = false) :
    bring_up_system udp_base_port cs w
      = ⟨launch_all udp_base_port w (cs.take k) 0 ++ failed_launch udp_base_port k line
          ++ bring_down_system udp_base_port cs false,
        Status.exited 1⟩ := by
  rw [bring_up_reaches udp_base_port cs w k line hline hok, bring_up_loop]
  simp [spawn, hfail, failed_launch]

theorem bring_up_wait_blocks (udp_base_port : Int) (cs : CConfigScript) (w : World) (k : Nat)
    (line : List String) (hline : cs[k]? = some line)
    (hok : ∀ j, j < k → unit_ok udp_base_port w j) (hs : w.spawn_ok k = true)
    (hw : (wait_for_executable udp_base_port (udp_base_port + (k : Int) + 1)
            (w.outcomes k)).returned = false) :
    bring_up_system udp_base_port cs w
      = ⟨launch_all udp_base_port w (cs.take k) 0 ++ launch_events udp_base_port w k line,
        Status.waiting⟩ := by
  rw [bring_up_reaches udp_base_port cs w k line hline hok, bring_up_loop]
  simp [spawn, hs, hw, launch_events, spawn_then_wait]

/-! ## Reading the trace of a bring-up -/

theorem wait_trace_senders (udp_base_port port : Int) (outs : List Outcome) :
    (wait_for_executable udp_base_port port outs).trace.filterMap sender_port = [port] := by
  rw [wait_trace_eq]
  simp [sender_port, List.filterMap_replicate]

theorem wait_trace_downs (udp_base_port port : Int) (outs : List Outcome) :
    down_targets (wait_for_executable udp_base_port port outs).trace = [] := by
  rw [wait_trace_eq]
  simp [down_targets, down_target, List.filterMap_replicate, CMD_PING, CMD_DOWN]

theorem wait_trace_execs (udp_base_port port : Int) (outs : List Outcome) :
    (wait_for_executable udp_base_port port outs).trace.filterMap execv_argv = [] := by
  rw [wait_trace_eq]
  simp [execv_argv, List.filterMap_replicate]

theorem wait_trace_no_printf (udp_base_port port : Int) (outs : List Outcome) :
    (wait_for_executable udp_base_port port outs).trace.filter (fun e => !is_printf e)
      = (wait_for_executable udp_base_port port outs).trace := by
  rw [wait_trace_eq]
  simp [is_printf]

theorem launch_all_senders (udp_base_port : Int) (w : World) (l : List (List String)) (i : Nat) :
    (launch_all udp_base_port w l i).filterMap sender_port
      = port_range (udp_base_port + (i : Int)) l.length := by
  induction l generalizing i with
  | nil => simp [launch_all, port_range]
  | cons line rest ih =>
    simp only [launch_all, launch_events, spawn_then_wait, List.filterMap_append,
      List.filterMap_cons, sender_port, wait_trace_senders, ih, List.length_cons, port_range_succ]
    have e : udp_base_port + ((i + 1 : Nat) : Int) = udp_base_port + (i : Int) + 1 := by
      push_cast; ring
    rw [e]
    rfl

theorem launch_all_downs (udp_base_port : Int) (w : World) (l : List (List String)) (i : Nat) :
    down_targets (launch_all udp_base_port w l i) = [] := by
  induction l generalizing i with
  | nil => simp [launch_all, down_targets]
  | cons line rest ih =>
    rw [launch_all, down_targets_append, ih]
    simp only [launch_events, spawn_then_wait, List.append_nil]
    have h := wait_trace_downs udp_base_port (udp_base_port + (i : Int) + 1) (w.outcomes i)
    simp only [down_targets, List.filterMap_cons, down_target] at h ⊢
    exact h

theorem launch_all_execs_length (udp_base_port : Int) (w : World) (l : List (List String))
    (i : Nat) : ((launch_all udp_base_port w l i).filterMap execv_argv).length = l.length := by
  induction l generalizing i with
  | nil => simp [launch_all]
  | cons line rest ih =>
    simp only [launch_all, launch_events, spawn_then_wait, List.filterMap_append,
      List.filterMap_cons, execv_argv, wait_trace_execs, List.length_append, List.length_cons,
      List.length_nil, ih]
    omega

theorem launch_all_no_printf (udp_base_port : Int) (w : World) (l : List (List String))
    (i : Nat) :
    (launch_all udp_base_port w l i).filter (fun e => !is_printf e)
      = spawn_wait_all udp_base_port w l i := by
  induction l generalizing i with
  | nil => simp [launch_all, spawn_wait_all]
  | cons line rest ih =>
    simp only [launch_all, spawn_wait_all, List.filter_append, ih, launch_events]
    congr 1
    simp only [spawn_then_wait, List.filter_cons]
    rw [wait_trace_no_printf]
    simp [is_printf]

theorem bring_up_loop_head (udp_base_port : Int) (cs : CConfigScript) (w : World)
    (line : List String) (rest : List (List String)) (p : Int) (i : Nat) :
    ∃ tl, (bring_up_loop udp_base_port cs w (line :: rest) p i).trace
      = Event.printf ("Launching " ++ (build_args line (p + 1)).getD 0 "" ++ "\n")
          :: Event.execv ((build_args line (p + 1)).take 19) :: tl := by
  rw [bring_up_loop]
  simp only [spawn, c_argv_spawn_param]
  split
  · exact ⟨_, rfl⟩
  · split
    · exact ⟨_, rfl⟩
    · exact ⟨_, rfl⟩

theorem bring_up_exec_at (udp_base_port : Int) (cs : CConfigScript) (w : World) (i : Nat)
    (line : List String) (hline : cs[i]? = some line)
    (hok : ∀ j, j < i → unit_ok udp_base_port w j) :
    ((bring_up_system udp_base_port cs w).trace.filterMap execv_argv)[i]?
      = some ((build_args line (udp_base_port + (i : Int) + 1)).take 19) := by
  have hi : i ≤ cs.length := by
    rcases Nat.lt_or_ge i cs.length with h | h
    · exact Nat.le_of_lt h
    · rw [List.getElem?_eq_none h] at hline
      cases hline
  rw [bring_up_reaches udp_base_port cs w i line hline hok]
  obtain ⟨tl, htl⟩ := bring_up_loop_head udp_base_port cs w line (cs.drop (i + 1))
    (udp_base_port + (i : Int)) i
  simp only [htl, List.filterMap_append, List.filterMap_cons, execv_argv]
  have hlen : ((launch_all udp_base_port w (List.take i cs) 0).filterMap execv_argv).length = i := by
    rw [launch_all_execs_length, List.length_take]
    omega
  rw [List.getElem?_append_right (by omega), hlen]
  simp

theorem demo_world_ok : ∀ i, i < demo_script.length → unit_ok 9000 demo_world i := by
  intro i hi
  have h2 : i < 2 := hi
  have hcases : i = 0 ∨ i = 1 := by omega
  rcases hcases with rfl | rfl
  · exact ⟨rfl, by decide⟩
  · exact ⟨rfl, by decide⟩

/-! ## The bring-up claims -/

/-- C1: in a bring-up in which every unit loads and answers, the senders of
the readiness waits are created for the ports `base+1, ..., base+N` in list
order (position `i`, counted from 0, gets `base+i+1`); these ports are strictly
increasing, hence pairwise distinct; and `bring_down_system`, in either mode,
sends its Shutdown messages to these ports in reverse order, one per port. -/
theorem ports_assigned_in_order (udp_base_port : Int) (cs : CConfigScript) (w : World)
    (hok : ∀ i, i < cs.length → unit_ok udp_base_port w i) :
    (bring_up_system udp_base_port cs w).trace.filterMap sender_port
        = port_range udp_base_port cs.length
      ∧ (∀ i, i < cs.length →
          (port_range udp_base_port cs.length)[i]? = some (udp_base_port + (i : Int) + 1))
      ∧ List.Pairwise (fun a b => a < b) (port_range udp_base_port cs.length)
      ∧ (port_range udp_base_port cs.length).Nodup
      ∧ (∀ immediate : Bool,
          down_targets (bring_down_system udp_base_port cs immediate)
            = (port_range udp_base_port cs.length).reverse) := by
  refine ⟨?_, fun i hi => port_range_get _ _ i hi, port_range_increasing _ _,
    port_range_nodup _ _, fun immediate => down_targets_bring_down _ _ immediate⟩
  rw [bring_up_all_ok udp_base_port cs w hok]
  simpa using launch_all_senders udp_base_port w cs 0

/-- Witness of C1: the two-record script with base port 9000. -/
theorem ports_assigned_in_order_witness :
    (bring_up_system 9000 demo_script demo_world).trace.filterMap sender_port = [9001, 9002]
      ∧ down_targets (bring_down_system 9000 demo_script false) = [9002, 9001] :=
  ⟨(ports_assigned_in_order 9000 demo_script demo_world demo_world_ok).1.trans (by decide),
    ((ports_assigned_in_order 9000 demo_script demo_world demo_world_ok).2.2.2.2 false).trans
      (by decide)⟩

/-- C2, the counterexample: "logger", the second unit, does not load; the
rollback sends a Shutdown to port 9002, the port of "logger" itself, before the
one to port 9001. -/
theorem rollback_reaches_failed_unit :
    unit_ok 9000 logger_absent_world 0
      ∧ logger_absent_world.spawn_ok 1 = false
      ∧ (bring_up_system 9000 demo_script logger_absent_world).status = Status.exited 1
      ∧ down_targets (bring_up_system 9000 demo_script logger_absent_world).trace
          = [9002, 9001] :=
  ⟨⟨by decide, by decide⟩, by decide, by decide, by decide⟩

/-- C2, amended: when the units in front of position `k` load and answer and
`spawn` fails for the unit at position `k`, `bring_up_system` prints the
failure, runs the graceful bring-down of the whole list and ends the process
with exit code 1: the Shutdown messages of the run go to the ports
`base+N, ..., base+1` in this order, one per port. -/
theorem rollback_kills_whole_system (udp_base_port : Int) (cs : CConfigScript) (w : World)
    (k : Nat) (line : List String) (hline : cs[k]? = some line)
    (hok : ∀ j, j < k → unit_ok udp_base_port w j) (hfail : w.spawn_ok k = false) :
    bring_up_system udp_base_port cs w
        = ⟨launch_all udp_base_port w (cs.take k) 0 ++ failed_launch udp_base_port k line
            ++ bring_down_system udp_base_port cs false,
          Status.exited 1⟩
      ∧ down_targets (bring_up_system udp_base_port cs w).trace
          = (port_range udp_base_port cs.length).reverse := by
  have h := bring_up_spawn_fails udp_base_port cs w k line hline hok hfail
  refine ⟨h, ?_⟩
  rw [h]
  simp only [down_targets_append, launch_all_downs, down_targets_bring_down, List.nil_append]
  simp [failed_launch, down_targets, down_target]

/-- Witness of C2, amended: "logger" does not load in the two-record script. -/
theorem rollback_kills_whole_system_witness :
    demo_script[1]? = some ["logger", "-v"]
      ∧ logger_absent_world.spawn_ok 1 = false
      ∧ down_targets (bring_up_system 9000 demo_script logger_absent_world).trace
          = (port_range 9000 demo_script.length).reverse :=
  ⟨by decide, by decide,
    (rollback_kills_whole_system 9000 demo_script logger_absent_world 1 ["logger", "-v"]
      (by decide)
      (fun j hj => by
        have hj0 : j = 0 := by omega
        subst hj0
        exact ⟨by decide, by decide⟩)
      (by decide)).2⟩

/-- C3, the counterexample: for a record of 18 tokens the new image gets the
18 tokens and "-mport", and no port. -/
theorem long_record_loses_port :
    long_record.length = 18
      ∧ (bring_up_system 9000 [long_record] demo_world).trace.filterMap execv_argv
          = [long_record ++ ["-mport"]]
      ∧ long_record ++ ["-mport"] ≠ long_record ++ ["-mport", i_to_s (9000 + 1)] := by
  decide

/-- C3, amended: for a record of at most 17 tokens at position `i` (counted
from 0) that the bring-up reaches, the argument vector handed to the new image
is the tokens of the record, in order, followed by "-mport" and the decimal
string of `base+i+1`. -/
theorem spawned_argv_ends_with_mport (udp_base_port : Int) (cs : CConfigScript) (w : World)
    (i : Nat) (line : List String) (hline : cs[i]? = some line)
    (hok : ∀ j, j < i → unit_ok udp_base_port w j) (hlen : line.length ≤ 17) :
    ((bring_up_system udp_base_port cs w).trace.filterMap execv_argv)[i]?
      = some (line ++ ["-mport", i_to_s (udp_base_port + (i : Int) + 1)]) := by
  rw [bring_up_exec_at udp_base_port cs w i line hline hok]
  congr 1
  apply List.take_of_length_le
  simp [build_args]
  omega

/-- Witness of C3, amended: the second record of the two-record script. -/
theorem spawned_argv_ends_with_mport_witness :
    demo_script[1]? = some ["logger", "-v"]
      ∧ ((bring_up_system 9000 demo_script demo_world).trace.filterMap execv_argv)[1]?
          = some ["logger", "-v", "-mport", "9002"] :=
  ⟨by decide,
    (spawned_argv_ends_with_mport 9000 demo_script demo_world 1 ["logger", "-v"] (by decide)
      (fun j hj => demo_world_ok j (by
        have h2 : demo_script.length = 2 := by decide
        omega))
      (by decide)).trans (by decide)⟩

/-- C6: without "down" as first argument, `main` first runs the immediate
bring-down of all ports in reverse order and pauses for one second.  When
every unit loads and answers, the rest of the trace is, record after record in
list order, the line "Launching <path>", the process creation and the
readiness wait on the port of that record, and the process ends with code 0;
without the progress lines the trace is the down-sweep, the pause, and for
each record its process creation immediately followed by its wait.  When the
wait of the unit at position `k` has not returned, the trace ends inside that
wait: no later unit has been spawned. -/
theorem full_run_trace (argv : List String) (udp_base_port : Int) (cs : CConfigScript)
    (w : World) (hup : argv[1]? ≠ some "down") :
    ((∀ i, i < cs.length → unit_ok udp_base_port w i) →
        main argv (Config.ok udp_base_port cs) w
            = ⟨bring_down_system udp_base_port cs true
                ++ Event.sleep 1 :: launch_all udp_base_port w cs 0,
              Status.exited 0⟩
          ∧ (main argv (Config.ok udp_base_port cs) w).trace.filter (fun e => !is_printf e)
            = bring_down_system udp_base_port cs true
                ++ Event.sleep 1 :: spawn_wait_all udp_base_port w cs 0)
      ∧ (∀ (k : Nat) (line : List String), cs[k]? = some line →
          (∀ j, j < k → unit_ok udp_base_port w j) → w.spawn_ok k = true →
          (wait_for_executable udp_base_port (udp_base_port + (k : Int) + 1)
            (w.outcomes k)).returned = false →
          main argv (Config.ok udp_base_port cs) w
            = ⟨bring_down_system udp_base_port cs true
                ++ Event.sleep 1 :: (launch_all udp_base_port w (cs.take k) 0
                  ++ launch_events udp_base_port w k line),
              Status.waiting⟩) := by
  constructor
  · intro hok
    have hmain : main argv (Config.ok udp_base_port cs) w
        = ⟨bring_down_system udp_base_port cs true
            ++ Event.sleep 1 :: launch_all udp_base_port w cs 0,
          Status.exited 0⟩ := by
      simp [main, hup, bring_up_all_ok udp_base_port cs w hok]
    refine ⟨hmain, ?_⟩
    rw [hmain]
    simp only [List.filter_append, List.filter_cons, launch_all_no_printf]
    have hq : (bring_down_system udp_base_port cs true).filter (fun e => !is_printf e)
        = bring_down_system udp_base_port cs true := by
      rw [List.filter_eq_self]
      intro e he
      have h := kill_all_immediate_quiet _ e he
      simp [h.1]
    rw [hq]
    simp [is_printf]
  · intro k line hline hok hs hw
    simp [main, hup, bring_up_wait_blocks udp_base_port cs w k line hline hok hs hw]

/-- Witness of C6: the script `[("echoer", []), ("logger", ["-v"])]` with base
port 9000, each unit answering the first Ping. -/
theorem full_run_trace_witness :
    ["launcher"][1]? ≠ some "down"
      ∧ main ["launcher"] (Config.ok 9000 demo_script) demo_world
        = ⟨[Event.create_sender 9002, Event.send 9002 [3], Event.close 9002,
            Event.create_sender 9001, Event.send 9001 [3], Event.close 9001,
            Event.sleep 1,
            Event.printf "Launching echoer\n",
            Event.execv ["echoer", "-mport", "9001"],
            Event.create_server 9000, Event.create_sender 9001, Event.send 9001 [1, 9000],
            Event.printf "Launching logger\n",
            Event.execv ["logger", "-v", "-mport", "9002"],
            Event.create_server 9000, Event.create_sender 9002, Event.send 9002 [1, 9000]],
          Status.exited 0⟩ :=
  ⟨by decide,
    ((full_run_trace ["launcher"] 9000 demo_script demo_world (by decide)).1 demo_world_ok).1.trans
      (by decide)⟩

end Launcher
